/-
Verification of the zxing-cpp barcode decoding library against its
natural-language specification.  Each section embeds the relevant C++
source (shallow embedding: machine integers as Nat/Int, fallible code as
Option, in-place mutation as explicit state passing) and proves or
refutes the spec claims about it.
-/
import Mathlib

set_option maxRecDepth 400000

/-! ## BarcodeFormat (src/core/src/BarcodeFormat.h)

Each format tag is a single bit of a 64-bit word (the C++ enum is backed
by `uint64_t`).  The derived sets `LinearCodes`, `MatrixCodes` and `Any`
are bitwise unions exactly as written in the header. -/

namespace BarcodeFormat

def NoneF          : Nat := 0
def AustraliaPost  : Nat := 1 <<< 0
def Aztec          : Nat := 1 <<< 1
def AztecRune      : Nat := 1 <<< 2
def ChannelCode    : Nat := 1 <<< 3
def Codabar        : Nat := 1 <<< 4
def CodablockF     : Nat := 1 <<< 5
def Code11         : Nat := 1 <<< 6
def Code128        : Nat := 1 <<< 7
def Code16K        : Nat := 1 <<< 8
def Code32         : Nat := 1 <<< 9
def Code39         : Nat := 1 <<< 10
def Code49         : Nat := 1 <<< 11
def Code93         : Nat := 1 <<< 12
def CodeOne        : Nat := 1 <<< 13
def DataBar        : Nat := 1 <<< 14
def DataBarExpanded : Nat := 1 <<< 15
def DataBarExpandedStacked : Nat := 1 <<< 16
def DataBarLimited : Nat := 1 <<< 17
def DataBarStacked : Nat := 1 <<< 18
def DataBarStackedOmnidirectional : Nat := 1 <<< 19
def Datalogic2of5  : Nat := 1 <<< 20
def DataMatrix     : Nat := 1 <<< 21
def DeutschePostIdentcode : Nat := 1 <<< 22
def DeutschePostLeitcode  : Nat := 1 <<< 23
def DotCode        : Nat := 1 <<< 24
def DXFilmEdge     : Nat := 1 <<< 25
def EAN13          : Nat := 1 <<< 26
def EAN8           : Nat := 1 <<< 27
def GridMatrix     : Nat := 1 <<< 28
def HanXin         : Nat := 1 <<< 29
def IATA2of5       : Nat := 1 <<< 30
def Industrial2of5 : Nat := 1 <<< 31
def ITF            : Nat := 1 <<< 32
def JapanPost      : Nat := 1 <<< 33
def KIXCode        : Nat := 1 <<< 34
def KoreaPost      : Nat := 1 <<< 35
def LOGMARS        : Nat := 1 <<< 36
def Mailmark       : Nat := 1 <<< 37
def Matrix2of5     : Nat := 1 <<< 38
def MaxiCode       : Nat := 1 <<< 39
def MicroQRCode    : Nat := 1 <<< 40
def MSI            : Nat := 1 <<< 41
def PDF417         : Nat := 1 <<< 42
def Pharmacode     : Nat := 1 <<< 43
def PharmacodeTwoTrack : Nat := 1 <<< 44
def PLANET         : Nat := 1 <<< 45
def POSTNET        : Nat := 1 <<< 46
def PZN            : Nat := 1 <<< 47
def QRCode         : Nat := 1 <<< 48
def RM4SCC         : Nat := 1 <<< 49
def RMQRCode       : Nat := 1 <<< 50
def Telepen        : Nat := 1 <<< 51
def UPCA           : Nat := 1 <<< 52
def UPCE           : Nat := 1 <<< 53
def UPNQR          : Nat := 1 <<< 54
def USPSIMB        : Nat := 1 <<< 55

/-- The union defining `LinearCodes`, member by member in source order. -/
def LinearCodes : Nat :=
  Codabar ||| Code39 ||| Code93 ||| Code128 ||| EAN8 ||| EAN13 ||| ITF ||| DataBar |||
  DataBarExpanded ||| DataBarLimited ||| DataBarStacked ||| DataBarStackedOmnidirectional |||
  DataBarExpandedStacked ||| DXFilmEdge ||| UPCA ||| UPCE ||| AustraliaPost ||| KIXCode |||
  JapanPost ||| KoreaPost ||| RM4SCC ||| Mailmark ||| USPSIMB ||| DeutschePostLeitcode |||
  DeutschePostIdentcode ||| Code11 ||| POSTNET ||| PLANET ||| MSI ||| Telepen ||| LOGMARS |||
  Code32 ||| Pharmacode ||| PharmacodeTwoTrack ||| PZN ||| ChannelCode ||| Matrix2of5 |||
  Industrial2of5 ||| IATA2of5 ||| Datalogic2of5 ||| CodablockF ||| Code16K ||| Code49

/-- The union defining `MatrixCodes`, member by member in source order. -/
def MatrixCodes : Nat :=
  Aztec ||| AztecRune ||| CodeOne ||| DataMatrix ||| DotCode ||| GridMatrix ||| HanXin |||
  MaxiCode ||| PDF417 ||| QRCode ||| MicroQRCode ||| RMQRCode ||| UPNQR

def AnyFormat : Nat := LinearCodes ||| MatrixCodes

/-- All concrete format tags other than `None`, in declaration order. -/
def allFormats : List Nat :=
  [AustraliaPost, Aztec, AztecRune, ChannelCode, Codabar, CodablockF, Code11, Code128,
   Code16K, Code32, Code39, Code49, Code93, CodeOne, DataBar, DataBarExpanded,
   DataBarExpandedStacked, DataBarLimited, DataBarStacked, DataBarStackedOmnidirectional,
   Datalogic2of5, DataMatrix, DeutschePostIdentcode, DeutschePostLeitcode, DotCode,
   DXFilmEdge, EAN13, EAN8, GridMatrix, HanXin, IATA2of5, Industrial2of5, ITF, JapanPost,
   KIXCode, KoreaPost, LOGMARS, Mailmark, Matrix2of5, MaxiCode, MicroQRCode, MSI, PDF417,
   Pharmacode, PharmacodeTwoTrack, PLANET, POSTNET, PZN, QRCode, RM4SCC, RMQRCode,
   Telepen, UPCA, UPCE, UPNQR, USPSIMB]

/-- Modelled from the spec: `ZXing::Flags::testFlag` (Flags.h is not among the
sources; §4.4 describes the derived sets as "unions of individual format
bits").  A flag is set in a mask when the mask contains all of its bits. -/
def testFlag (mask flag : Nat) : Bool := mask &&& flag == flag

/-- `IsLinearBarcode` from BarcodeFormat.h line 97. -/
def IsLinearBarcode (format : Nat) : Bool := testFlag LinearCodes format

end BarcodeFormat

/-- C10: every BarcodeFormat tag other than None is a distinct single bit of a
64-bit word (nonzero, power of two via the `f &&& (f-1) = 0` characterisation,
below `2^64`), `LinearCodes` and `MatrixCodes` are disjoint, `Any` is their
union, and every concrete tag is classified as exactly one of linear or matrix,
making `IsLinearBarcode` unambiguous. -/
theorem C10_format_bits_partition :
    BarcodeFormat.allFormats.Nodup ∧
    (∀ f ∈ BarcodeFormat.allFormats, f ≠ 0 ∧ f &&& (f - 1) = 0 ∧ f < 2 ^ 64) ∧
    BarcodeFormat.LinearCodes &&& BarcodeFormat.MatrixCodes = 0 ∧
    BarcodeFormat.AnyFormat = BarcodeFormat.LinearCodes ||| BarcodeFormat.MatrixCodes ∧
    (∀ f ∈ BarcodeFormat.allFormats,
      (BarcodeFormat.IsLinearBarcode f = true ∧
        BarcodeFormat.testFlag BarcodeFormat.MatrixCodes f = false) ∨
      (BarcodeFormat.IsLinearBarcode f = false ∧
        BarcodeFormat.testFlag BarcodeFormat.MatrixCodes f = true)) := by
  refine ⟨by decide, by decide, by decide, rfl, by decide⟩

/-! ## QR reader UPNQR tagging (src/core/src/qrcode/QRReader.cpp)

`IsUPNQR` (lines 30-41) and the format-selection step of
`Reader::decode(image, maxSymbols)` (lines 154-167) for a decoder result
that already passed validity.  `DecoderResult`/`Content`/`ECI` live outside
the given sources; they are modelled by the fields the reader consults. -/

namespace QR

/-- The fields of a `DecoderResult` (with its `Content`) that `QRReader.cpp`
consults: version number, EC level string, the content's ECI flag, the list
of recorded ECI transition values, and the payload bytes. -/
structure DecoderResult where
  versionNumber : Int
  ecLevel : String
  hasECI : Bool
  encodings : List Nat
  bytes : List Nat

/-- Modelled from the spec: the numeric value of `ECI::ISO8859_2` (ECI.h is
not among the sources; spec §8 scenario 4 says "whose first ECI is 4
(ISO-8859-2)"). -/
def ECI_ISO8859_2 : Nat := 4

/-- `IsUPNQR`, QRReader.cpp lines 30-41: version 15, EC level M, content has
an ECI whose first recorded encoding is ISO-8859-2. -/
def IsUPNQR (r : DecoderResult) : Bool :=
  if r.versionNumber != 15 then false
  else if r.ecLevel != "M" then false
  else if !r.hasECI || r.encodings.isEmpty then false
  else r.encodings.headI == ECI_ISO8859_2

/-- QRReader.cpp lines 154-167: given the requested format set and a valid
decoder result, pick the reported format (`UPNQR` exactly when UPNQR was
requested and `IsUPNQR` holds, otherwise `QRCode`) and emit the barcode only
when the chosen format was requested. -/
def emit (formats : Nat) (r : DecoderResult) : Option (Nat × DecoderResult) :=
  let isUPN := BarcodeFormat.testFlag formats BarcodeFormat.UPNQR && IsUPNQR r
  let format := if isUPN then BarcodeFormat.UPNQR else BarcodeFormat.QRCode
  if BarcodeFormat.testFlag formats format then some (format, r) else none

end QR

/-- C2: the QR reader reports format UPNQR exactly when the symbol's version
is 15, its EC level is M, its content's first ECI transition selects
ISO-8859-2, and UPNQR is among the requested formats; with only QRCode
requested the same decoder result is emitted as QRCode with identical
payload. -/
theorem C2_upnqr_tagging :
    (∀ r : QR.DecoderResult, QR.IsUPNQR r = true ↔
      r.versionNumber = 15 ∧ r.ecLevel = "M" ∧ r.hasECI = true ∧
      r.encodings.head? = some QR.ECI_ISO8859_2) ∧
    (∀ (formats : Nat) (r : QR.DecoderResult),
      (QR.emit formats r).map Prod.fst = some BarcodeFormat.UPNQR ↔
        BarcodeFormat.testFlag formats BarcodeFormat.UPNQR = true ∧
        QR.IsUPNQR r = true) ∧
    (∀ r : QR.DecoderResult,
      QR.emit BarcodeFormat.QRCode r = some (BarcodeFormat.QRCode, r)) := by
  refine ⟨?_, ?_, ?_⟩
  · intro r
    unfold QR.IsUPNQR
    rcases r with ⟨v, ec, he, encs, bs⟩
    rcases encs with _ | ⟨e, es⟩ <;>
      simp [List.headI, bne_iff_ne, QR.ECI_ISO8859_2]
  · intro formats r
    rcases hb1 : BarcodeFormat.testFlag formats BarcodeFormat.UPNQR with _ | _ <;>
      rcases hb2 : QR.IsUPNQR r with _ | _ <;>
      rcases hb3 : BarcodeFormat.testFlag formats BarcodeFormat.QRCode with _ | _ <;>
      simp [QR.emit, hb1, hb2, hb3,
        show BarcodeFormat.QRCode ≠ BarcodeFormat.UPNQR from by decide]
  · intro r
    have h1 : BarcodeFormat.testFlag BarcodeFormat.QRCode BarcodeFormat.UPNQR = false := by
      decide
    have h2 : BarcodeFormat.testFlag BarcodeFormat.QRCode BarcodeFormat.QRCode = true := by
      decide
    simp [QR.emit, h1, h2]

/-! ## Code 32 (src/core/src/oned/ODCode32Reader.cpp)

The base-32 conversion, check-digit computation and the tail of
`Code32Reader::decodePattern` (lines 167-198), which turns the six decoded
Code 39 characters into the emitted text and the checksum-validity flag.
Digit characters are represented by their numeric values; the final text
applies `'0' + d` when it is assembled, as the source does. -/

namespace Code32

def BASE32_ALPHABET : List Char := "0123456789BCDFGHJKLMNPQRSTUVWXYZ".toList

/-- `Base32Value`, lines 41-48: index of the character in the base-32
alphabet, -1 if absent. -/
def Base32Value (c : Char) : Int :=
  match BASE32_ALPHABET.findIdx? (· == c) with
  | some i => (i : Int)
  | none => -1

/-- The accumulation loop of `Base32ToNumber` (lines 59-66):
`result = result * 32 + value`, -1 as soon as a character is invalid. -/
def base32Loop : List Char → Int → Int
  | [], acc => acc
  | c :: cs, acc =>
    if Base32Value c < 0 then -1 else base32Loop cs (acc * 32 + Base32Value c)

/-- `Base32ToNumber`, lines 54-67. -/
def Base32ToNumber (s : List Char) : Int :=
  if s.length != 6 then -1 else base32Loop s 0

/-- The digit-filling loop of `NumberToDigits` (lines 78-81): fills positions
8 down to 0 with `num % 10`, dividing `num` by 10 each step. -/
def numToDigitsLoop : Nat → Nat → List Nat → List Nat
  | 0, _, acc => acc
  | i + 1, n, acc => numToDigitsLoop i (n / 10) (n % 10 :: acc)

/-- `NumberToDigits`, lines 72-83 (digit values; empty when out of range). -/
def NumberToDigits (num : Int) : List Nat :=
  if num < 0 || num > 999999999 then [] else numToDigitsLoop 9 num.toNat []

/-- `CalculateCheckDigit`, lines 94-110: positions 1, 3, 5, 7 are doubled and
reduced by 9 when the double exceeds 9; the check digit is the sum mod 10
(-1 when fewer than 8 digits are supplied). -/
def CalculateCheckDigit (digits : List Nat) : Int :=
  if digits.length < 8 then -1
  else (((List.range 8).foldl (fun s i =>
    let d := digits.getD i 0
    s + if i % 2 == 1 then (if d * 2 > 9 then d * 2 - 9 else d * 2) else d) 0) % 10 : Nat)

/-- `ValidateCheckDigit`, lines 115-123. -/
def ValidateCheckDigit (digits : List Nat) : Bool :=
  if digits.length != 9 then false
  else CalculateCheckDigit digits == ((digits.getD 8 0 : Nat) : Int)

/-- The tail of `Code32Reader::decodePattern`, lines 167-198: length-6 check,
base-32 validity, numeric conversion with range check, digit expansion, check
digit validation, and the final text `"A" + digits`. -/
def decodeTail (code39Text : List Char) : Option (String × Bool) :=
  if code39Text.length != 6 then none
  else if code39Text.any (fun c => decide (Base32Value c < 0)) then none
  else
    let numericValue := Base32ToNumber code39Text
    if numericValue < 0 || numericValue > 999999999 then none
    else
      let ds := NumberToDigits numericValue
      if ds.isEmpty then none
      else some (String.mk ('A' :: ds.map (fun d => Char.ofNat (48 + d))),
                 ValidateCheckDigit ds)

theorem numToDigitsLoop_length (k : Nat) : ∀ (n : Nat) (acc : List Nat),
    (numToDigitsLoop k n acc).length = k + acc.length := by
  induction k with
  | zero => intro n acc; simp [numToDigitsLoop]
  | succ k ih => intro n acc; rw [numToDigitsLoop, ih]; simp; omega

theorem numToDigitsLoop_lt (k : Nat) : ∀ (n : Nat) (acc : List Nat),
    (∀ d ∈ acc, d < 10) → ∀ d ∈ numToDigitsLoop k n acc, d < 10 := by
  induction k with
  | zero => intro n acc h; simpa [numToDigitsLoop] using h
  | succ k ih =>
    intro n acc h d hd
    refine ih (n / 10) (n % 10 :: acc) ?_ d hd
    intro x hx
    rcases List.mem_cons.mp hx with rfl | hx
    · exact Nat.mod_lt _ (by omega)
    · exact h x hx

theorem numToDigitsLoop_foldl (k : Nat) : ∀ (n init : Nat) (acc : List Nat),
    (numToDigitsLoop k n acc).foldl (fun a d => a * 10 + d) init =
    acc.foldl (fun a d => a * 10 + d) (init * 10 ^ k + n % 10 ^ k) := by
  induction k with
  | zero => intro n init acc; simp [numToDigitsLoop, Nat.mod_one]
  | succ k ih =>
    intro n init acc
    rw [numToDigitsLoop, ih, List.foldl_cons]
    congr 1
    rw [show n % 10 ^ (k + 1) = 10 * (n / 10 % 10 ^ k) + n % 10 from by
      rw [pow_succ, mul_comm (10 ^ k) 10, Nat.mod_mul]; omega]
    ring

theorem CalculateCheckDigit_enum (ds : List Nat) (h : 8 ≤ ds.length) :
    CalculateCheckDigit ds =
      ((((ds.take 8).enum.map (fun p =>
        if p.1 % 2 = 1 then (if p.2 * 2 > 9 then p.2 * 2 - 9 else p.2 * 2) else p.2)).sum
        % 10 : Nat) : Int) := by
  rcases ds with _ | ⟨d0, ds⟩; · simp at h
  rcases ds with _ | ⟨d1, ds⟩; · simp at h
  rcases ds with _ | ⟨d2, ds⟩; · simp at h
  rcases ds with _ | ⟨d3, ds⟩; · simp at h
  rcases ds with _ | ⟨d4, ds⟩; · simp at h
  rcases ds with _ | ⟨d5, ds⟩; · simp at h
  rcases ds with _ | ⟨d6, ds⟩; · simp at h
  rcases ds with _ | ⟨d7, ds⟩; · simp at h
  have hr : List.range 8 = [0, 1, 2, 3, 4, 5, 6, 7] := by decide
  simp [CalculateCheckDigit, hr, List.take, List.enum, List.enumFrom, List.getD]
  omega

end Code32

/-- C7: every barcode emitted by the Code 32 reader has text `'A'` followed by
exactly 9 decimal digits whose value is the base-32 value of the six decoded
symbol characters, and the checksum is reported valid exactly when the ninth
digit equals the mod-10 alternating 1/2-weight Luhn-style checksum of the
first eight digits (every second digit doubled, reduced by 9 above 9). -/
theorem C7_code32_text_and_checksum :
    ∀ (s : List Char) (txt : String) (valid : Bool),
      Code32.decodeTail s = some (txt, valid) →
      ∃ ds : List Nat,
        txt = String.mk ('A' :: ds.map (fun d => Char.ofNat (48 + d))) ∧
        ds.length = 9 ∧ (∀ d ∈ ds, d < 10) ∧
        ds.foldl (fun a d => a * 10 + d) 0 = (Code32.Base32ToNumber s).toNat ∧
        (valid = true ↔
          ds.getD 8 0 =
            ((ds.take 8).enum.map (fun p =>
              if p.1 % 2 = 1 then (if p.2 * 2 > 9 then p.2 * 2 - 9 else p.2 * 2)
              else p.2)).sum % 10) := by
  intro s txt valid h
  simp only [Code32.decodeTail, Code32.NumberToDigits] at h
  split_ifs at h with h1 h2 h3 h4
  all_goals
    rw [Option.some.injEq, Prod.mk.injEq] at h
    obtain ⟨htxt, hvalid⟩ := h
    have hlen : (Code32.numToDigitsLoop 9 (Code32.Base32ToNumber s).toNat []).length = 9 := by
      rw [Code32.numToDigitsLoop_length]; rfl
    refine ⟨Code32.numToDigitsLoop 9 (Code32.Base32ToNumber s).toNat [],
      htxt.symm, hlen, ?_, ?_, ?_⟩
    · exact Code32.numToDigitsLoop_lt 9 _ [] (by simp)
    · rw [Code32.numToDigitsLoop_foldl]
      simp only [List.foldl_nil, Nat.zero_mul, Nat.zero_add]
      simp only [Bool.or_eq_true, decide_eq_true_eq, not_or, not_lt] at h3
      rw [show (10 : Nat) ^ 9 = 1000000000 from by norm_num]
      omega
    · rw [← hvalid, Code32.ValidateCheckDigit, if_neg (by simp [hlen]),
          Code32.CalculateCheckDigit_enum _ (by rw [hlen]; omega)]
      rw [beq_iff_eq, Nat.cast_inj]
      exact eq_comm

/-- Witness for C7 at the base-32 input "BCDFGH" (value 347485647, whose
Luhn-style check digit is 9, so the embedded ninth digit 7 is invalid). -/
theorem C7_code32_witness :
    ∃ ds : List Nat,
      ("A347485647" : String) = String.mk ('A' :: ds.map (fun d => Char.ofNat (48 + d))) ∧
      ds.length = 9 ∧ (∀ d ∈ ds, d < 10) ∧
      ds.foldl (fun a d => a * 10 + d) 0 = (Code32.Base32ToNumber "BCDFGH".toList).toNat ∧
      (false = true ↔
        ds.getD 8 0 = ((ds.take 8).enum.map (fun p =>
          if p.1 % 2 = 1 then (if p.2 * 2 > 9 then p.2 * 2 - 9 else p.2 * 2)
          else p.2)).sum % 10) :=
  C7_code32_text_and_checksum "BCDFGH".toList "A347485647" false (by decide)

/-! ## Korea Post (src/core/src/oned/ODKoreaPostReader.cpp)

`CalculateCheckDigit` (lines 166-174) and the check-and-emit step of
`KoreaPostReader::decodePattern` (lines 239-261), starting from the seven
decoded digits.  Digit characters are represented by their values. -/

namespace KoreaPost

/-- `CalculateCheckDigit`, lines 166-174: `10 - (sum of digits mod 10)`,
mapped to 0 when it equals 10. -/
def CalculateCheckDigit (digits : List Nat) : Nat :=
  let sum := digits.foldl (· + ·) 0
  let check := 10 - sum % 10
  if check == 10 then 0 else check

/-- Lines 239-261 of `decodePattern`: require exactly seven decoded digits,
compare the seventh against the check of the first six, and emit only the six
data digits. -/
def decodeFinish (result : List Nat) : Option (List Nat) :=
  if result.length != 7 then none
  else
    let dataDigits := result.take 6
    let expectedCheck := CalculateCheckDigit dataDigits
    let actualCheck := result.getD 6 0
    if expectedCheck != actualCheck then none
    else some dataDigits

end KoreaPost

/-- C8: a Korea Post result is produced only when the seventh decoded digit
equals the mod-10 check derived from the sum of the six data digits (10 minus
the sum mod 10, with 10 mapped to 0), and the emitted text is exactly the six
data digits, never including the check digit. -/
theorem C8_koreapost_check_and_text :
    ∀ (result out : List Nat), KoreaPost.decodeFinish result = some out →
      out = result.take 6 ∧ out.length = 6 ∧
      result.getD 6 0 = (10 - (out.foldl (· + ·) 0) % 10) % 10 := by
  intro result out h
  simp only [KoreaPost.decodeFinish] at h
  split_ifs at h with h1 h2
  rw [Option.some.injEq] at h
  subst h
  have hl : result.length = 7 := by
    simpa using h1
  refine ⟨rfl, by rw [List.length_take]; omega, ?_⟩
  simp only [bne_iff_ne, ne_eq, not_not] at h2
  rw [← h2, KoreaPost.CalculateCheckDigit]
  simp only [beq_iff_eq]
  split_ifs with hc
  · omega
  · omega

/-- Witness for C8 at the decoded digit string 1234569 (sum 21, check 9). -/
theorem C8_koreapost_witness :
    [1, 2, 3, 4, 5, 6] = [1, 2, 3, 4, 5, 6, 9].take 6 ∧
    ([1, 2, 3, 4, 5, 6] : List Nat).length = 6 ∧
    [1, 2, 3, 4, 5, 6, 9].getD 6 0 =
      (10 - (([1, 2, 3, 4, 5, 6] : List Nat).foldl (· + ·) 0) % 10) % 10 :=
  C8_koreapost_check_and_text [1, 2, 3, 4, 5, 6, 9] [1, 2, 3, 4, 5, 6] (by decide)

/-! ## Royal Mail RM4SCC (src/core/src/oned/ODRM4SCCReader.cpp)

Bar states: FULL = 0, ASCENDER = 1, DESCENDER = 2, TRACKER = 3.  The
character table, checksum (lines 95-131) and `DecodeBarStates`
(lines 344-386) are embedded; the latter is split into the raw character
decode (structure checks and quad lookups) and the final
checksum-validate-and-strip step, as the source lays it out. -/

namespace RM4SCC

def RM4SCC_CHARSET : List Char := "0123456789ABCDEFGHIJKLMNOPQRSTUVWXYZ".toList

/-- `ROYAL_TABLE`, lines 41-78: the 4-state encoding of each of the 36
characters. -/
def ROYAL_TABLE : List (Nat × Nat × Nat × Nat) :=
  [(3, 3, 0, 0), (3, 2, 1, 0), (3, 2, 0, 1), (2, 3, 1, 0), (2, 3, 0, 1), (2, 2, 1, 1),
   (3, 1, 2, 0), (3, 0, 3, 0), (3, 0, 2, 1), (2, 1, 3, 0), (2, 1, 2, 1), (2, 0, 3, 1),
   (3, 1, 0, 2), (3, 0, 1, 2), (3, 0, 0, 3), (2, 1, 1, 2), (2, 1, 0, 3), (2, 0, 1, 3),
   (1, 3, 2, 0), (1, 2, 3, 0), (1, 2, 2, 1), (0, 3, 3, 0), (0, 3, 2, 1), (0, 2, 3, 1),
   (1, 3, 0, 2), (1, 2, 1, 2), (1, 2, 0, 3), (0, 3, 1, 2), (0, 3, 0, 3), (0, 2, 1, 3),
   (1, 1, 2, 2), (1, 0, 3, 2), (1, 0, 2, 3), (0, 1, 3, 2), (0, 1, 2, 3), (0, 0, 3, 3)]

/-- `DecodeQuad`, lines 82-90: index of the matching table row, none if no
row matches. -/
def DecodeQuad (b0 b1 b2 b3 : Nat) : Option Nat :=
  ROYAL_TABLE.findIdx? (fun q =>
    q.1 == b0 && q.2.1 == b1 && q.2.2.1 == b2 && q.2.2.2 == b3)

/-- The `pos` computation inside `CalculateChecksum` (lines 100-106):
character position in the 36-character set, -1 outside `0-9A-Z`. -/
def charPos (c : Char) : Int :=
  if '0' ≤ c ∧ c ≤ '9' then (c.toNat : Int) - 48
  else if 'A' ≤ c ∧ c ≤ 'Z' then (c.toNat : Int) - 65 + 10
  else -1

/-- `CalculateChecksum`, lines 95-116: positions are split into a 6x6 grid;
the checksum index is `(row sum mod 6) * 6 + (column sum mod 6)`. -/
def CalculateChecksum (data : List Char) : Nat :=
  let sums := data.foldl (fun (rc : Nat × Nat) c =>
    let pos := charPos c
    if 0 ≤ pos ∧ pos < 36 then (rc.1 + pos.toNat / 6, rc.2 + pos.toNat % 6) else rc) (0, 0)
  sums.1 % 6 * 6 + sums.2 % 6

/-- `ValidateChecksum`, lines 119-131: the last character must be the charset
entry at the checksum index of the preceding characters. -/
def ValidateChecksum (dataWithChecksum : List Char) : Bool :=
  if dataWithChecksum.length < 2 then false
  else
    let data := dataWithChecksum.dropLast
    let checksumChar := dataWithChecksum.getLastD ' '
    let expectedIdx := CalculateChecksum data
    if 36 ≤ expectedIdx then false
    else RM4SCC_CHARSET.getD expectedIdx ' ' == checksumChar

/-- The per-character loop of `DecodeBarStates` (lines 371-378): decode
consecutive groups of four bar states through the table. -/
def decodeQuads : List Nat → Option (List Char)
  | b0 :: b1 :: b2 :: b3 :: rest =>
    match DecodeQuad b0 b1 b2 b3 with
    | none => none
    | some idx =>
      if 36 ≤ idx then none
      else (decodeQuads rest).map (fun cs => RM4SCC_CHARSET.getD idx ' ' :: cs)
  | [] => some []
  | _ => none

/-- The structural part of `DecodeBarStates` (lines 344-378): bar count and
divisibility checks, start bar ASCENDER, stop bar FULL, then the quad
decode over the bars between them. -/
def decodeRaw (states : List Nat) : Option (List Char) :=
  let barCount := states.length
  if barCount < 10 || (barCount - 6) % 4 != 0 then none
  else if states.headI != 1 then none
  else if states.getLastD 0 != 0 then none
  else
    let numChars := (barCount - 2) / 4
    if numChars < 2 then none
    else decodeQuads ((states.drop 1).take (numChars * 4))

/-- `DecodeBarStates`, lines 344-386: raw decode, checksum validation, and
the final strip of the checksum character (`result.substr(0, length-1)`). -/
def DecodeBarStates (states : List Nat) : List Char :=
  match decodeRaw states with
  | none => []
  | some result => if !ValidateChecksum result then [] else result.dropLast

/-- The bar-state sequence of an RM4SCC symbol encoding `SN381AB` with its
correct checksum character `O`: start ASCENDER, the eight quads for
S, N, 3, 8, 1, A, B, O, stop FULL. -/
def snStates : List Nat :=
  [1,
   0, 3, 0, 3,  0, 2, 3, 1,  2, 3, 1, 0,  3, 0, 2, 1,
   3, 2, 1, 0,  2, 1, 2, 1,  2, 0, 3, 1,  1, 3, 0, 2,
   0]

end RM4SCC

/-- C5 counterexample: for the bar-state sequence encoding postcode data
`SN381AB` with its correct check character, `DecodeBarStates` returns the
data characters only — the text is not the data followed by the derived
check character, contrary to the claim's `"SN381AB<CHECK>"`. -/
theorem C5_rm4scc_counterexample :
    RM4SCC.DecodeBarStates RM4SCC.snStates = "SN381AB".toList ∧
    RM4SCC.DecodeBarStates RM4SCC.snStates ≠
      "SN381AB".toList ++
        [RM4SCC.RM4SCC_CHARSET.getD (RM4SCC.CalculateChecksum "SN381AB".toList) ' '] :=
  ⟨by decide, by decide⟩

/-- C5 (amended): every successfully decoded RM4SCC barcode consists of the
data characters only; the raw decode carries one further character — the one
at index `(row-sum mod 6) * 6 + (column-sum mod 6)` of the 36-character set —
which is verified and then stripped; the `SN38 1AB` symbol yields text
`"SN381AB"`. -/
theorem C5_rm4scc_check_verified_then_stripped :
    (∀ (states : List Nat) (out : List Char),
      RM4SCC.DecodeBarStates states = out → out ≠ [] →
      ∃ c, RM4SCC.decodeRaw states = some (out ++ [c]) ∧
        RM4SCC.RM4SCC_CHARSET.getD (RM4SCC.CalculateChecksum out) ' ' = c) ∧
    RM4SCC.DecodeBarStates RM4SCC.snStates = "SN381AB".toList := by
  constructor
  · intro states out h hne
    unfold RM4SCC.DecodeBarStates at h
    rcases hraw : RM4SCC.decodeRaw states with _ | result
    · rw [hraw] at h
      exact absurd h.symm hne
    · rw [hraw] at h
      rcases hv : RM4SCC.ValidateChecksum result with _ | _
      · simp only [hv, Bool.not_false, if_true] at h
        exact absurd h.symm hne
      · simp only [hv, Bool.not_true, Bool.false_eq_true, if_false] at h
        subst h
        simp only [RM4SCC.ValidateChecksum] at hv
        split_ifs at hv with hl hi
        simp only [beq_iff_eq] at hv
        have hres : result ≠ [] := by
          intro hnil
          rw [hnil] at hl
          simp at hl
        have hgl : result.getLastD ' ' = result.getLast hres := by
          rw [List.getLastD_eq_getLast?, List.getLast?_eq_getLast _ hres]
          rfl
        refine ⟨result.getLastD ' ', ?_, hv⟩
        rw [hgl, List.dropLast_append_getLast hres]
  · decide

/-- Witness for the general part of the amended C5 at the `SN381AB` symbol. -/
theorem C5_rm4scc_witness :
    ∃ c, RM4SCC.decodeRaw RM4SCC.snStates = some ("SN381AB".toList ++ [c]) ∧
      RM4SCC.RM4SCC_CHARSET.getD (RM4SCC.CalculateChecksum "SN381AB".toList) ' ' = c :=
  C5_rm4scc_check_verified_then_stripped.1 RM4SCC.snStates "SN381AB".toList
    (by decide) (by decide)

/-! ## Pharmacode (src/core/src/oned/ODPharmacodeReader.cpp)

`ClassifyBars` (lines 36-80), `DecodeValue` (lines 90-108),
`DecodeValueAllWide` (lines 113-120) and the classify-decode-validate steps
of `decodePattern` (lines 194-216).  A `PatternView` is a list of run
lengths with bars at even indices.  The float threshold comparisons
(`maxWidth < minWidth * 2.0f`, `barWidths[i] > threshold`) are exact on
these integer magnitudes and are embedded as integer comparisons. -/

namespace Pharmacode

/-- The bar-collection loop of `ClassifyBars` (lines 49-51): elements at even
indices of the view. -/
def evens : List Nat → List Nat
  | [] => []
  | [x] => [x]
  | x :: _ :: rest => x :: evens rest

/-- `ClassifyBars`, lines 36-80: false = narrow, true = wide; empty on a bar
count outside [2,16]; a uniform run (max < 2*min) is classified all narrow. -/
def ClassifyBars (view : List Nat) : List Bool :=
  let barCount := (view.length + 1) / 2
  if barCount < 2 || barCount > 16 then []
  else
    let barWidths := evens view
    let minWidth := barWidths.foldl Nat.min barWidths.headI
    let maxWidth := barWidths.foldl Nat.max barWidths.headI
    if maxWidth < 2 * minWidth then List.replicate barCount false
    else barWidths.map (fun w => 2 * minWidth < w)

/-- The accumulation loop of `DecodeValue` (lines 96-105): `i` counts up,
`position = barCount - 1 - i`, a narrow bar adds `1 << position`, a wide bar
`2 << position`. -/
def decodeValueLoop (n : Nat) : Nat → List Bool → Nat → Nat
  | _, [], v => v
  | i, b :: rest, v =>
    let position := n - 1 - i
    decodeValueLoop n (i + 1) rest (v + if b then 2 <<< position else 1 <<< position)

/-- `DecodeValue`, lines 90-108. -/
def DecodeValue (isWide : List Bool) : Nat := decodeValueLoop isWide.length 0 isWide 0

/-- `DecodeValueAllWide`, lines 113-120. -/
def DecodeValueAllWide (barCount : Nat) : Nat :=
  (List.range barCount).foldl (fun v i => v + (2 <<< i)) 0

/-- The classify-decode-validate steps of `decodePattern` (lines 194-216):
classify, decode, re-interpret an all-narrow classification as all wide when
the value falls outside [3, 131070], and emit only an in-range value. -/
def decodeView (view : List Nat) : Option Nat :=
  let isWide := ClassifyBars view
  if isWide.isEmpty then none
  else
    let value := DecodeValue isWide
    if value < 3 || value > 131070 then
      let value2 := if isWide.all (fun b => !b) then DecodeValueAllWide isWide.length
                    else value
      if value2 < 3 || value2 > 131070 then none else some value2
    else some value

/-- The claim's decode formula, written from the spec text for comparison
with `DecodeValue`: bars are read right to left, the bar at position `n`
(from the right) contributes `2^n` when narrow and `2 * 2^n` when wide.
The argument lists the bars right to left, so the head is position 0. -/
def specValueRightToLeft : List Bool → Nat
  | [] => 0
  | b :: rest => (if b then 2 * 2 ^ 0 else 2 ^ 0) + 2 * specValueRightToLeft rest

theorem specValueRightToLeft_append (r : List Bool) (b : Bool) :
    specValueRightToLeft (r ++ [b]) =
      specValueRightToLeft r + (if b then 2 else 1) * 2 ^ r.length := by
  induction r with
  | nil => simp [specValueRightToLeft]
  | cons x r ih =>
    rw [List.cons_append, specValueRightToLeft, ih, specValueRightToLeft]
    rw [List.length_cons, pow_succ]
    ring

theorem decodeValueLoop_spec (l : List Bool) : ∀ (n i v : Nat), i + l.length = n →
    decodeValueLoop n i l v = v + specValueRightToLeft l.reverse := by
  induction l with
  | nil => intro n i v _; simp [decodeValueLoop, specValueRightToLeft]
  | cons b rest ih =>
    intro n i v hn
    rw [decodeValueLoop, ih n (i + 1) _ (by simp at hn ⊢; omega)]
    rw [List.reverse_cons, specValueRightToLeft_append, List.length_reverse]
    have hpos : n - 1 - i = rest.length := by simp at hn; omega
    rw [hpos, Nat.shiftLeft_eq, Nat.shiftLeft_eq]
    rcases b with _ | _ <;> simp <;> ring

end Pharmacode

/-- C6 counterexample: an image with 5 uniform wide bars (width 3, unit
spaces) is classified all-narrow by `ClassifyBars` (a uniform run never
exceeds the 2:1 threshold) and decodes to 31, not to the claimed 62; the
all-wide reinterpretation only applies when the all-narrow value falls
outside [3, 131070], which never happens for 2 to 16 bars. -/
theorem C6_pharmacode_counterexample :
    Pharmacode.decodeView [3, 1, 3, 1, 3, 1, 3, 1, 3] = some 31 ∧
    Pharmacode.decodeView [3, 1, 3, 1, 3, 1, 3, 1, 3] ≠ some 62 :=
  ⟨by decide, by decide⟩

/-- C6 (amended): the Pharmacode reader decodes a run of 2 to 16 bars right
to left, a narrow bar at position n contributing `2^n` and a wide bar
`2 * 2^n`, and emits only values in [3, 131070]; an image with 5 narrow bars
decodes to 31, and an image with 5 uniform wide bars is classified all-narrow
and also decodes to 31. -/
theorem C6_pharmacode_decode :
    (∀ (view : List Nat) (v : Nat), Pharmacode.decodeView view = some v →
      3 ≤ v ∧ v ≤ 131070 ∧ 2 ≤ (view.length + 1) / 2 ∧ (view.length + 1) / 2 ≤ 16) ∧
    (∀ isWide : List Bool,
      Pharmacode.DecodeValue isWide = Pharmacode.specValueRightToLeft isWide.reverse) ∧
    Pharmacode.decodeView [1, 1, 1, 1, 1, 1, 1, 1, 1] = some 31 ∧
    Pharmacode.decodeView [3, 1, 3, 1, 3, 1, 3, 1, 3] = some 31 := by
  refine ⟨?_, ?_, by decide, by decide⟩
  · intro view v h
    have hcls : Pharmacode.ClassifyBars view ≠ [] := by
      intro hnil
      simp [Pharmacode.decodeView, hnil] at h
    have hbars : ¬((view.length + 1) / 2 < 2 || (view.length + 1) / 2 > 16) = true := by
      intro hc
      apply hcls
      rw [Pharmacode.ClassifyBars]
      simp only [hc, if_true]
    simp only [Bool.or_eq_true, decide_eq_true_eq, not_or, not_lt] at hbars
    obtain ⟨hb1, hb2⟩ := hbars
    simp only [Pharmacode.decodeView] at h
    split_ifs at h with h1 h2 h3 h4
    all_goals
      first
      | exact Option.noConfusion h
      | (rw [Option.some.injEq] at h
         subst h
         first
         | (simp only [Bool.or_eq_true, decide_eq_true_eq, not_or, not_lt] at h4
            exact ⟨by omega, by omega, by omega, by omega⟩)
         | (simp only [Bool.or_eq_true, decide_eq_true_eq, not_or, not_lt] at h2
            exact ⟨by omega, by omega, by omega, by omega⟩))
  · intro isWide
    rw [Pharmacode.DecodeValue,
      Pharmacode.decodeValueLoop_spec isWide isWide.length 0 0 (by omega)]
    exact Nat.zero_add _

/-- Witness for the general part of the amended C6 at the 5-narrow-bar view. -/
theorem C6_pharmacode_witness :
    3 ≤ 31 ∧ 31 ≤ 131070 ∧
    2 ≤ (([1, 1, 1, 1, 1, 1, 1, 1, 1] : List Nat).length + 1) / 2 ∧
    (([1, 1, 1, 1, 1, 1, 1, 1, 1] : List Nat).length + 1) / 2 ≤ 16 :=
  C6_pharmacode_decode.1 [1, 1, 1, 1, 1, 1, 1, 1, 1] 31 (by decide)

/-! ## Prime-field Reed-Solomon decoder (src/core/src/ReedSolomonModulusDecoder.cpp)

`ReedSolomonDecodeModulus` with `RunEuclideanAlgorithm`, `FindErrorLocations`
and `FindErrorMagnitudes`, over the prime fields of ModulusGFFields.cpp.
The field and polynomial classes (`Pdf417::ModulusGF`, `Pdf417::ModulusPoly`)
are declared in pdf417/ headers that are not among the sources; they are
modelled from the spec (§3 "Galois Field" / "Polynomial over GF", §4.2
prime-field tables).  A polynomial is its coefficient list, highest degree
first, normalized so that only the zero polynomial starts with 0.  Failure
(`return false`) is `none`; success carries the corrected vector and the
number of corrections.  The C++ while-loops are embedded with explicit fuel
large enough that it is never exhausted (each loop strictly decreases a
polynomial degree). -/

namespace ModulusRS

/-- `Pdf417::ModulusGF`, reduced to its constructor arguments (modulus and
generator), ModulusGFFields.cpp lines 12-27. -/
structure ModulusGF where
  modulus : Nat
  generator : Nat

/-- `GetGF113`, ModulusGFFields.cpp lines 12-18: GF(113) with generator 3. -/
def GetGF113 : ModulusGF := ⟨113, 3⟩

/-- `GetGF929`, ModulusGFFields.cpp lines 20-26: GF(929) with generator 3. -/
def GetGF929 : ModulusGF := ⟨929, 3⟩

/-- Modelled from the spec: field addition in GF(p) (ModulusGF is not among
the sources; spec §3: "elements are integers mod p with modular
arithmetic"). -/
def fadd (f : ModulusGF) (a b : Nat) : Nat := (a + b) % f.modulus

/-- Modelled from the spec: field subtraction in GF(p); the second operand is
always a reduced field element, so `a + p - b` does not underflow. -/
def fsub (f : ModulusGF) (a b : Nat) : Nat := (a + f.modulus - b) % f.modulus

/-- Modelled from the spec: field multiplication in GF(p). -/
def fmul (f : ModulusGF) (a b : Nat) : Nat := a * b % f.modulus

/-- Modelled from the spec: the `generator^i` exponential table (spec §4.2:
"a simple modular table with generator^i"). -/
def fexp (f : ModulusGF) (i : Nat) : Nat := f.generator ^ i % f.modulus

/-- Modelled from the spec: the discrete-log table, defined on non-zero field
elements; out of domain the search falls through to `p - 1`. -/
def flog (f : ModulusGF) (a : Nat) : Nat :=
  (List.range (f.modulus - 1)).findIdx (fun i => fexp f i == a)

/-- Modelled from the spec: multiplicative inverse via the tables
(`exp(p - 1 - log a)`). -/
def finv (f : ModulusGF) (a : Nat) : Nat := fexp f (f.modulus - 1 - flog f a)

/-- Modelled from the spec: the ModulusPoly constructor's leading-zero
normalization ("highest-degree first after normalization"). -/
def pnorm : List Nat → List Nat
  | [] => [0]
  | c :: rest => if c = 0 then pnorm rest else c :: rest

/-- Modelled from the spec: `degree` (the zero polynomial is `[0]` with
degree 0, as in the source class). -/
def degree (p : List Nat) : Nat := p.length - 1

/-- Modelled from the spec: `isZero`. -/
def isZero (p : List Nat) : Bool := p.headI == 0

/-- Modelled from the spec: `coefficient(d)`, the coefficient of `x^d`;
callers only use it within the degree. -/
def coefficient (p : List Nat) (d : Nat) : Nat := p.getD (p.length - 1 - d) 0

/-- Modelled from the spec: `evaluate_at` by Horner's rule. -/
def evaluateAt (f : ModulusGF) (p : List Nat) (x : Nat) : Nat :=
  p.foldl (fun acc c => fadd f (fmul f acc x) c) 0

/-- Modelled from the spec: polynomial `add` (align, add pointwise,
normalize). -/
def polyAdd (f : ModulusGF) (a b : List Nat) : List Nat :=
  let n := max a.length b.length
  pnorm (List.zipWith (fadd f)
    (List.replicate (n - a.length) 0 ++ a) (List.replicate (n - b.length) 0 ++ b))

/-- Modelled from the spec: polynomial negation (`(p - c) mod p` per
coefficient). -/
def polyNeg (f : ModulusGF) (a : List Nat) : List Nat :=
  pnorm (a.map (fun c => fsub f 0 c))

/-- Modelled from the spec: polynomial `sub` as addition of the negative. -/
def polySub (f : ModulusGF) (a b : List Nat) : List Nat := polyAdd f a (polyNeg f b)

/-- Modelled from the spec: polynomial `mul` by convolution. -/
def polyMul (f : ModulusGF) (a b : List Nat) : List Nat :=
  if isZero a || isZero b then [0]
  else pnorm ((List.range (a.length + b.length - 1)).map (fun k =>
    (List.range a.length).foldl (fun s i =>
      if k ≥ i ∧ k - i < b.length then fadd f s (fmul f (a.getD i 0) (b.getD (k - i) 0))
      else s) 0))

/-- Modelled from the spec: `mul_by_monomial`. -/
def mulByMonomial (f : ModulusGF) (a : List Nat) (deg coef : Nat) : List Nat :=
  if coef == 0 then [0]
  else pnorm (a.map (fun c => fmul f c coef) ++ List.replicate deg 0)

/-- Modelled from the spec: multiplication by a scalar. -/
def mulScalar (f : ModulusGF) (a : List Nat) (s : Nat) : List Nat :=
  if s == 0 then [0] else pnorm (a.map (fun c => fmul f c s))

/-- Modelled from the spec: `build_monomial(degree, coef)`. -/
def buildMonomial (f : ModulusGF) (deg coef : Nat) : List Nat :=
  if coef == 0 then [0] else coef :: List.replicate deg 0

/-- The inner division loop of `RunEuclideanAlgorithm` (lines 45-50): divide
`r` by `rLast`, accumulating the quotient in `q`; the fuel is the dividend's
degree plus one, which the strictly decreasing remainder degree never
exhausts. -/
def divisionLoop (f : ModulusGF) (rLast : List Nat) (dltInverse : Nat) :
    Nat → List Nat → List Nat → List Nat × List Nat
  | 0, q, r => (q, r)
  | fuel + 1, q, r =>
    if degree r ≥ degree rLast ∧ ¬isZero r then
      let degreeDiff := degree r - degree rLast
      let scale := fmul f (coefficient r (degree r)) dltInverse
      divisionLoop f rLast dltInverse fuel
        (polyAdd f q (buildMonomial f degreeDiff scale))
        (polySub f r (mulByMonomial f rLast degreeDiff scale))
    else (q, r)

/-- The main loop of `RunEuclideanAlgorithm` (lines 30-53): iterate while the
remainder's degree is at least R/2; a zero divisor terminates with failure.
Returns the final `(r, t)` pair. -/
def euclidLoop (f : ModulusGF) (R : Nat) :
    Nat → List Nat → List Nat → List Nat → List Nat → Option (List Nat × List Nat)
  | 0, _, _, _, _ => none
  | fuel + 1, rLast, r, tLast, t =>
    if degree r ≥ R / 2 then
      if isZero r then none
      else
        let rLastLast := rLast
        let tLastLast := tLast
        let dltInverse := finv f (coefficient r (degree r))
        let qr := divisionLoop f r dltInverse (degree rLastLast + 1) [0] rLastLast
        euclidLoop f R fuel r qr.2 t
          (polyNeg f (polySub f (polyMul f qr.1 t) tLastLast))
    else some (r, t)

/-- Lines 17-53 of `RunEuclideanAlgorithm`: the argument swap and the loop,
stopping before the σ(0) normalization check. -/
def euclidLoopResult (f : ModulusGF) (a b : List Nat) (R : Nat) :
    Option (List Nat × List Nat) :=
  let p := if degree a < degree b then (b, a) else (a, b)
  euclidLoop f R (degree p.1 + degree p.2 + R + 2) p.1 p.2 [0] [1]

/-- `RunEuclideanAlgorithm`, lines 17-64: fails when the loop terminates
abnormally or when `sigmaTilde(0) = 0`; otherwise normalizes so that
`sigma(0) = 1` and returns `(sigma, omega)`. -/
def RunEuclideanAlgorithm (f : ModulusGF) (a b : List Nat) (R : Nat) :
    Option (List Nat × List Nat) :=
  match euclidLoopResult f a b R with
  | none => none
  | some (r, t) =>
    let sigmaTildeAtZero := coefficient t 0
    if sigmaTildeAtZero == 0 then none
    else
      let inv := finv f sigmaTildeAtZero
      some (mulScalar f t inv, mulScalar f r inv)

/-- The Chien-search loop of `FindErrorLocations` (lines 71-77): scan
`i = 1, 2, ...` below the field size while fewer than `numErrors` roots have
been found, collecting `inverse(i)` for each root of the locator. -/
def chienLoop (f : ModulusGF) (sigma : List Nat) (numErrors : Nat) :
    Nat → Nat → List Nat → List Nat
  | 0, _, acc => acc
  | fuel + 1, i, acc =>
    if i < f.modulus ∧ acc.length < numErrors then
      if evaluateAt f sigma i == 0 then
        chienLoop f sigma numErrors fuel (i + 1) (acc ++ [finv f i])
      else chienLoop f sigma numErrors fuel (i + 1) acc
    else acc

/-- `FindErrorLocations`, lines 66-79: fails unless exactly `degree sigma`
roots are found. -/
def FindErrorLocations (f : ModulusGF) (sigma : List Nat) : Option (List Nat) :=
  let numErrors := degree sigma
  let result := chienLoop f sigma numErrors f.modulus 1 []
  if result.length == numErrors then some result else none

/-- `FindErrorMagnitudes`, lines 81-99: Forney's formula with the formal
derivative of the error locator. -/
def FindErrorMagnitudes (f : ModulusGF) (errorEvaluator errorLocator : List Nat)
    (errorLocations : List Nat) : List Nat :=
  let d := degree errorLocator
  let formalDerivative := pnorm ((List.range d).map (fun j =>
    fmul f (d - j) (coefficient errorLocator (d - j))))
  errorLocations.map (fun loc =>
    let xiInverse := finv f loc
    let numerator := fsub f 0 (evaluateAt f errorEvaluator xiInverse)
    let denominator := finv f (evaluateAt f formalDerivative xiInverse)
    fmul f numerator denominator)

/-- The correction loop of `ReedSolomonDecodeModulus` (lines 142-149):
`position = size - 1 - log(location)`, failing on a negative position,
otherwise subtracting the magnitude at that position. -/
def applyCorrections (f : ModulusGF) :
    List Nat → List Nat → List Nat → Option (List Nat)
  | received, [], _ => some received
  | received, loc :: locs, mag :: mags =>
    let position : Int := (received.length : Int) - 1 - (flog f loc : Int)
    if position < 0 then none
    else applyCorrections f
      (received.set position.toNat (fsub f (received.getD position.toNat 0) mag)) locs mags
  | _, _ :: _, [] => none

/-- The syndrome vector of lines 112-121: `S[k - i]` is the received
polynomial evaluated at `alpha^i`, for `i = k` down to `1`. -/
def syndromesOf (f : ModulusGF) (received : List Nat) (k : Nat) : List Nat :=
  (List.range k).map (fun j => evaluateAt f (pnorm received) (fexp f (k - j)))

/-- `ReedSolomonDecodeModulus`, lines 110-152. -/
def ReedSolomonDecodeModulus (f : ModulusGF) (received : List Nat) (k : Nat) :
    Option (List Nat × Nat) :=
  let S := syndromesOf f received k
  if !(S.any (fun s => s != 0)) then some (received, 0)
  else
    match RunEuclideanAlgorithm f (buildMonomial f k 1) (pnorm S) k with
    | none => none
    | some (sigma, omega) =>
      match FindErrorLocations f sigma with
      | none => none
      | some errorLocations =>
        (applyCorrections f received errorLocations
          (FindErrorMagnitudes f omega sigma errorLocations)).map
          (fun r => (r, errorLocations.length))

end ModulusRS

/-- C4: when the received vector's evaluations at `alpha^1 .. alpha^k` are all
zero, `ReedSolomonDecodeModulus` returns success, reports zero corrections,
and leaves the received vector unchanged. -/
theorem C4_rs_zero_syndromes (f : ModulusRS.ModulusGF) (received : List Nat) (k : Nat)
    (h : ∀ i < k,
      ModulusRS.evaluateAt f (ModulusRS.pnorm received) (ModulusRS.fexp f (i + 1)) = 0) :
    ModulusRS.ReedSolomonDecodeModulus f received k = some (received, 0) := by
  have hS : (ModulusRS.syndromesOf f received k).any (fun s => s != 0) = false := by
    rw [List.any_eq_false]
    intro x hx
    rw [ModulusRS.syndromesOf] at hx
    simp only [List.mem_map, List.mem_range] at hx
    obtain ⟨j, hj, rfl⟩ := hx
    have hz := h (k - j - 1) (by omega)
    rw [show k - j - 1 + 1 = k - j from by omega] at hz
    simp [hz]
  simp [ModulusRS.ReedSolomonDecodeModulus, hS]

/-- Witness for C4: the all-zero codeword over GF(113) with 2 EC codewords. -/
theorem C4_rs_witness :
    ModulusRS.ReedSolomonDecodeModulus ModulusRS.GetGF113 [0, 0, 0, 0] 2 =
      some ([0, 0, 0, 0], 0) :=
  C4_rs_zero_syndromes ModulusRS.GetGF113 [0, 0, 0, 0] 2 (by decide)

/-- C3 counterexample: over GF(113) with 2 EC codewords, the received vector
[71, 77, 96, 0, 4] has a nonzero syndrome, yet the decoder returns success
with zero corrections (the normalized error locator has degree 0, so the
Chien search trivially "succeeds" with no roots), leaving a vector that still
fails the syndrome-zero check: the decoder performs no post-correction
syndrome re-check, so the claim's fourth failure condition does not hold. -/
theorem C3_rs_counterexample :
    ModulusRS.ReedSolomonDecodeModulus ModulusRS.GetGF113 [71, 77, 96, 0, 4] 2 =
      some ([71, 77, 96, 0, 4], 0) ∧
    ModulusRS.syndromesOf ModulusRS.GetGF113 [71, 77, 96, 0, 4] 2 = [0, 110] ∧
    (110 : Nat) ≠ 0 :=
  ⟨by decide, by decide, by decide⟩

/-- C3 (amended): `ReedSolomonDecodeModulus` reports failure whenever the
Euclidean stage yields a sigma-tilde with constant term 0, or the Chien
search finds fewer roots than sigma's degree (`FindErrorLocations` fails), or
a computed error location maps to a position outside the codeword
(`applyCorrections` fails); it performs no post-correction syndrome check. -/
theorem C3_rs_failure_conditions :
    (∀ (f : ModulusRS.ModulusGF) (a b : List Nat) (R : Nat) (r t : List Nat),
      ModulusRS.euclidLoopResult f a b R = some (r, t) →
      ModulusRS.coefficient t 0 = 0 →
      ModulusRS.RunEuclideanAlgorithm f a b R = none) ∧
    (∀ (f : ModulusRS.ModulusGF) (received : List Nat) (k : Nat),
      (ModulusRS.syndromesOf f received k).any (fun s => s != 0) = true →
      (ModulusRS.RunEuclideanAlgorithm f (ModulusRS.buildMonomial f k 1)
          (ModulusRS.pnorm (ModulusRS.syndromesOf f received k)) k = none ∨
        (∃ sig om,
          ModulusRS.RunEuclideanAlgorithm f (ModulusRS.buildMonomial f k 1)
            (ModulusRS.pnorm (ModulusRS.syndromesOf f received k)) k = some (sig, om) ∧
          (ModulusRS.FindErrorLocations f sig = none ∨
            (∃ locs, ModulusRS.FindErrorLocations f sig = some locs ∧
              ModulusRS.applyCorrections f received locs
                (ModulusRS.FindErrorMagnitudes f om sig locs) = none)))) →
      ModulusRS.ReedSolomonDecodeModulus f received k = none) := by
  constructor
  · intro f a b R r t hloop h0
    rw [ModulusRS.RunEuclideanAlgorithm, hloop]
    simp [h0]
  · intro f received k hne hdisj
    simp only [ModulusRS.ReedSolomonDecodeModulus, hne, Bool.not_true, Bool.false_eq_true,
      if_false]
    rcases hdisj with he | ⟨sig, om, hsome, hrest⟩
    · rw [he]
    · rcases hrest with hchien | ⟨locs, hlocs, happ⟩
      · simp only [hsome, hchien]
      · simp only [hsome, hlocs, happ]
        rfl

/-- Witness for the amended C3: the received vector [110, 36, 97, 64, 14]
over GF(113) reaches the Euclidean stage with sigma-tilde [70, 0] (constant
term 0) and the decode fails. -/
theorem C3_rs_witness :
    ModulusRS.RunEuclideanAlgorithm ModulusRS.GetGF113
      (ModulusRS.buildMonomial ModulusRS.GetGF113 2 1)
      (ModulusRS.pnorm (ModulusRS.syndromesOf ModulusRS.GetGF113 [110, 36, 97, 64, 14] 2))
      2 = none ∧
    ModulusRS.ReedSolomonDecodeModulus ModulusRS.GetGF113 [110, 36, 97, 64, 14] 2 = none :=
  ⟨C3_rs_failure_conditions.1 ModulusRS.GetGF113
      (ModulusRS.buildMonomial ModulusRS.GetGF113 2 1)
      (ModulusRS.pnorm (ModulusRS.syndromesOf ModulusRS.GetGF113 [110, 36, 97, 64, 14] 2))
      2 [0] [70, 0] (by decide) (by decide),
   C3_rs_failure_conditions.2 ModulusRS.GetGF113 [110, 36, 97, 64, 14] 2 (by decide)
     (Or.inl (by decide))⟩

/-! ## Grid Matrix and DotCode error correction
(src/core/src/gridmatrix/GMDecoder.cpp, src/core/src/dotcode/DCDecoder.cpp)

Both `CorrectErrors` functions call the binary-field `ReedSolomonDecode` with
`GenericGF::DataMatrixField256()`.  `GenericGF` and `ReedSolomonDecode`
(ReedSolomonDecoder.cpp) are not among the sources, so the field descriptor
is modelled from the spec and the decode call is kept as a parameter: the
theorems are about which field each decoder passes to it. -/

/-- Modelled from the spec: a `GenericGF` binary extension field identified
by its order and primitive polynomial (GenericGF.h is not among the sources;
spec §4.2). -/
structure GenericGF where
  size : Nat
  primitive : Nat
deriving DecidableEq

/-- Modelled from the spec: `GenericGF::DataMatrixField256`, "GF(256) with
the Data Matrix polynomial x^8+x^5+x^3+x^2+1" (= 0x12D). -/
def GenericGF.DataMatrixField256 : GenericGF := ⟨256, 0x12D⟩

namespace GridMatrixDec

/-- `GridMatrix::CorrectErrors`, GMDecoder.cpp lines 178-194: despite the
comment "Grid Matrix uses GF(929)", the call passes
`GenericGF::DataMatrixField256()`; corrected values are truncated back to
bytes. -/
def CorrectErrors (rsDecode : GenericGF → List Nat → Nat → Option (List Nat))
    (codewords : List Nat) (ecCodewords : Nat) : Option (List Nat) :=
  if ecCodewords = 0 then some codewords
  else
    match rsDecode GenericGF.DataMatrixField256 codewords ecCodewords with
    | none => none
    | some cs => some (cs.map (fun c => c % 256))

end GridMatrixDec

namespace DotCodeDec

/-- `DotCode::CorrectErrors`, DCDecoder.cpp lines 122-139: despite the
comment "DotCode uses GF(113)", the call passes
`GenericGF::DataMatrixField256()` "as an approximation". -/
def CorrectErrors (rsDecode : GenericGF → List Nat → Nat → Option (List Nat))
    (codewords : List Nat) (ecCodewords : Nat) : Option (List Nat) :=
  if ecCodewords = 0 then some codewords
  else
    match rsDecode GenericGF.DataMatrixField256 codewords ecCodewords with
    | none => none
    | some cs => some (cs.map (fun c => c % 256))

end DotCodeDec

/-- C1: for every Grid Matrix and DotCode codeword stream that reaches error
correction with a nonzero EC count, the Reed-Solomon call is made over the
GF(256) Data Matrix field, not over the prime fields GF(929) / GF(113) that
the claim (and the decoders' own comments, and ModulusGFFields.cpp) name:
both `CorrectErrors` functions factor through
`rsDecode GenericGF.DataMatrixField256`, whose order 256 differs from 929
and from 113. -/
theorem C1_gridmatrix_dotcode_gf256 :
    (∀ (rsDecode : GenericGF → List Nat → Nat → Option (List Nat))
       (codewords : List Nat) (ec : Nat),
      GridMatrixDec.CorrectErrors rsDecode codewords ec =
        if ec = 0 then some codewords
        else (rsDecode GenericGF.DataMatrixField256 codewords ec).map
          (fun cs => cs.map (fun c => c % 256))) ∧
    (∀ (rsDecode : GenericGF → List Nat → Nat → Option (List Nat))
       (codewords : List Nat) (ec : Nat),
      DotCodeDec.CorrectErrors rsDecode codewords ec =
        if ec = 0 then some codewords
        else (rsDecode GenericGF.DataMatrixField256 codewords ec).map
          (fun cs => cs.map (fun c => c % 256))) ∧
    GenericGF.DataMatrixField256.size = 256 ∧
    ModulusRS.GetGF929.modulus = 929 ∧
    ModulusRS.GetGF113.modulus = 113 ∧
    (256 : Nat) ≠ 929 ∧ (256 : Nat) ≠ 113 := by
  refine ⟨?_, ?_, rfl, rfl, rfl, by decide, by decide⟩ <;>
  · intro rsDecode codewords ec
    simp only [GridMatrixDec.CorrectErrors, DotCodeDec.CorrectErrors]
    split_ifs with h
    · rfl
    · cases hr : rsDecode GenericGF.DataMatrixField256 codewords ec <;> simp [hr]

/-! ## 1D row dispatch line counts (src/core/src/oned/ODReader.cpp)

`DoDecode` (lines 224-408), abstracted over the parts that live outside the
given sources: the row scan is represented by the list of successful
`decodePattern` results in scan order (an early `goto out` on reaching
`maxSymbols` only truncates that list), `Barcode::operator==` by an abstract
`eq` predicate, and `HaveIntersectingBoundingBoxes` by an abstract
`intersects` predicate.  A `Barcode` is reduced to the fields this code
reads and writes: format, line count, and an abstract identity key. -/

namespace ODReader

/-- The fields of a `Barcode` that `DoDecode` manipulates; `key` stands for
the data `Barcode::operator==` compares (Barcode.h is not among the
sources). -/
structure ODBarcode where
  format : Nat
  lineCount : Nat
  key : Nat
deriving DecidableEq

/-- `Barcode()`, the default-constructed empty barcode: format None, line
count 0. -/
def emptyBarcode : ODBarcode := ⟨0, 0, 0⟩

/-- Lines 313-372: a successful `decodePattern` result gets
`IncrementLineCount`, is merged into an already-seen equal barcode (whose
line count is incremented, the new result being cleared), and is otherwise
appended when its format is not None. -/
def processCandidate (eq : ODBarcode → ODBarcode → Bool)
    (res : List ODBarcode) (c : ODBarcode) : List ODBarcode :=
  let c := { c with lineCount := c.lineCount + 1 }
  match res.findIdx? (fun other => eq c other) with
  | some i =>
    match res[i]? with
    | some other => res.set i { other with lineCount := other.lineCount + 1 }
    | none => res
  | none => if c.format != 0 then res ++ [c] else res

/-- The inner loop of the overlap suppression (lines 391-394): compare `a`
against every later element; on intersection the one with the smaller line
count is overwritten by `Barcode()`. -/
def suppressInner (intersects : ODBarcode → ODBarcode → Bool) :
    ODBarcode → List ODBarcode → ODBarcode × List ODBarcode
  | a, [] => (a, [])
  | a, b :: bs =>
    if intersects a b then
      if a.lineCount < b.lineCount then
        let pr := suppressInner intersects emptyBarcode bs
        (pr.1, b :: pr.2)
      else
        let pr := suppressInner intersects a bs
        (pr.1, emptyBarcode :: pr.2)
    else
      let pr := suppressInner intersects a bs
      (pr.1, b :: pr.2)

/-- The outer loop of the overlap suppression; the fuel is the list length,
which suffices because `suppressInner` preserves the length of its tail. -/
def suppressLoop (intersects : ODBarcode → ODBarcode → Bool) :
    Nat → List ODBarcode → List ODBarcode
  | 0, l => l
  | _ + 1, [] => []
  | fuel + 1, a :: rest =>
    let pr := suppressInner intersects a rest
    pr.1 :: suppressLoop intersects fuel pr.2

/-- Lines 381-401: drop symbols below the minimum line count, suppress
overlapping symbols, drop the cleared (format None) entries. -/
def doDecodeFinalize (intersects : ODBarcode → ODBarcode → Bool)
    (minLineCount : Nat) (res : List ODBarcode) : List ODBarcode :=
  let res1 := res.filter (fun r => !(r.lineCount < minLineCount))
  let res2 := suppressLoop intersects res1.length res1
  res2.filter (fun r => !(r.format == 0))

/-- `DoDecode`, lines 224-408: clamp `minLineCount` (1 when `isPure`, at most
the image height otherwise), accumulate the candidate results, finalize. -/
def DoDecode (eq intersects : ODBarcode → ODBarcode → Bool) (isPure : Bool)
    (minLineCount height : Nat) (candidates : List ODBarcode) : List ODBarcode :=
  let minLC := if isPure then 1 else min minLineCount height
  doDecodeFinalize intersects minLC (candidates.foldl (processCandidate eq) [])

theorem suppressInner_spec (intersects : ODBarcode → ODBarcode → Bool) :
    ∀ (l : List ODBarcode) (a : ODBarcode),
      ((suppressInner intersects a l).1 = a ∨
        (suppressInner intersects a l).1 = emptyBarcode) ∧
      ∀ x ∈ (suppressInner intersects a l).2, x ∈ l ∨ x = emptyBarcode := by
  intro l
  induction l with
  | nil => intro a; simp [suppressInner]
  | cons b bs ih =>
    intro a
    rw [suppressInner]
    split_ifs with h1 h2
    · refine ⟨(ih emptyBarcode).1.elim (fun h => Or.inr h) (fun h => Or.inr h), ?_⟩
      intro x hx
      rcases List.mem_cons.mp hx with rfl | hx
      · exact Or.inl (List.mem_cons_self _ _)
      · rcases (ih emptyBarcode).2 x hx with h | h
        · exact Or.inl (List.mem_cons_of_mem _ h)
        · exact Or.inr h
    · refine ⟨(ih a).1, ?_⟩
      intro x hx
      rcases List.mem_cons.mp hx with rfl | hx
      · exact Or.inr rfl
      · rcases (ih a).2 x hx with h | h
        · exact Or.inl (List.mem_cons_of_mem _ h)
        · exact Or.inr h
    · refine ⟨(ih a).1, ?_⟩
      intro x hx
      rcases List.mem_cons.mp hx with rfl | hx
      · exact Or.inl (List.mem_cons_self _ _)
      · rcases (ih a).2 x hx with h | h
        · exact Or.inl (List.mem_cons_of_mem _ h)
        · exact Or.inr h

theorem suppressLoop_mem (intersects : ODBarcode → ODBarcode → Bool) :
    ∀ (fuel : Nat) (l : List ODBarcode) (x : ODBarcode),
      x ∈ suppressLoop intersects fuel l → x ∈ l ∨ x = emptyBarcode := by
  intro fuel
  induction fuel with
  | zero => intro l x hx; exact Or.inl hx
  | succ fuel ih =>
    intro l x hx
    rcases l with _ | ⟨a, rest⟩
    · simp [suppressLoop] at hx
    · rw [suppressLoop] at hx
      rcases List.mem_cons.mp hx with rfl | hx
      · rcases (suppressInner_spec intersects rest a).1 with h | h
        · rw [h]; exact Or.inl (List.mem_cons_self _ _)
        · exact Or.inr h
      · rcases ih _ x hx with h | h
        · rcases (suppressInner_spec intersects rest a).2 x h with h2 | h2
          · exact Or.inl (List.mem_cons_of_mem _ h2)
          · exact Or.inr h2
        · exact Or.inr h

end ODReader

/-- C9: every barcode in the list returned by the 1D row dispatch has a line
count of at least `min_line_count` — clamped to the image height, and forced
to 1 when `is_pure` — because candidates below it are filtered out before the
list is returned (and the later overlap suppression only removes entries). -/
theorem C9_min_line_count :
    ∀ (eq intersects : ODReader.ODBarcode → ODReader.ODBarcode → Bool)
      (isPure : Bool) (minLineCount height : Nat)
      (candidates : List ODReader.ODBarcode) (b : ODReader.ODBarcode),
      b ∈ ODReader.DoDecode eq intersects isPure minLineCount height candidates →
      b.lineCount ≥ (if isPure then 1 else min minLineCount height) := by
  intro eq intersects isPure minLineCount height candidates b hb
  simp only [ODReader.DoDecode, ODReader.doDecodeFinalize] at hb
  rw [List.mem_filter] at hb
  obtain ⟨hb2, hfmt⟩ := hb
  rcases ODReader.suppressLoop_mem intersects _ _ b hb2 with h1 | rfl
  · rw [List.mem_filter] at h1
    have := h1.2
    simp only [Bool.not_eq_true', decide_eq_false_iff_not, not_lt] at this
    exact this
  · simp [ODReader.emptyBarcode] at hfmt

/-- Witness for C9: a single candidate of format 5 with one confirming line,
`is_pure` set. -/
theorem C9_min_line_count_witness :
    (⟨5, 1, 7⟩ : ODReader.ODBarcode).lineCount ≥ (if true then 1 else min 3 40) :=
  C9_min_line_count (fun a b => a.key == b.key) (fun _ _ => false) true 3 40
    [⟨5, 0, 7⟩] ⟨5, 1, 7⟩ (by decide)
